import Mathlib

/-!
Shallow embedding of the numeric codecs, speed-control mapping, lookup-table
update protocol and calibration algorithm of the feeph/libemc2101-python
fan-controller driver, together with theorems checking the specification
against the code.

Python floating-point arithmetic is modelled by exact rational arithmetic
(all quantities involved are small enough that IEEE double rounding never
crosses any decision boundary used by the code), Python `round` by
round-half-to-even (`pyRound`), Python `int()` truncation by `pyInt`,
Python exceptions by explicit error values, and the I2C register file by
an explicit state record threaded through the register operations.
-/

instance {ε α : Type} [DecidableEq ε] [DecidableEq α] : DecidableEq (Except ε α)
  | .error e, .error f =>
    if h : e = f then .isTrue (by rw [h]) else .isFalse (by simp [h])
  | .error _, .ok _ => .isFalse (by simp)
  | .ok _, .error _ => .isFalse (by simp)
  | .ok a, .ok b =>
    if h : a = b then .isTrue (by rw [h]) else .isFalse (by simp [h])

/-- Computable floor of a rational (agrees with `Int.floor`, see `ratFloor_eq`). -/
def ratFloor (q : ℚ) : ℤ := Rat.floor q

/-- Computable ceiling of a rational, `math.ceil` (agrees with `Int.ceil`). -/
def ratCeil (q : ℚ) : ℤ := -ratFloor (-q)

/-- Python `round`: round to the nearest integer, ties to the even integer. -/
def pyRound (q : ℚ) : ℤ :=
  let n := ratFloor q
  let r := q - n
  if r < 1/2 then n
  else if 1/2 < r then n + 1
  else if n % 2 = 0 then n else n + 1

/-- Python `int()` on a numeric value: truncation towards zero. -/
def pyInt (q : ℚ) : ℤ :=
  if 0 ≤ q then ratFloor q else -ratFloor (-q)

/-- Python `x % 1`: the fractional part (the divisor 1 is positive, so the
result has the sign of the divisor, i.e. lies in `[0, 1)`). -/
def pyMod1 (q : ℚ) : ℚ := q - ratFloor q

namespace conversions

/-- Embeds `convert_bytes2temperature` (src/feeph/emc2101/conversions.py):
start from the whole byte and add 0.50 / 0.25 / 0.15 for bits 7/6/5 of the
fraction byte. -/
def convert_bytes2temperature (msb lsb : ℤ) : ℚ :=
  let temp : ℚ := msb
  let temp := if Int.land lsb 0b10000000 ≠ 0 then temp + 50/100 else temp
  let temp := if Int.land lsb 0b01000000 ≠ 0 then temp + 25/100 else temp
  let temp := if Int.land lsb 0b00100000 ≠ 0 then temp + 15/100 else temp
  temp

/-- Embeds `convert_temperature2bytes` (src/feeph/emc2101/conversions.py):
whole part by `int()`, centi-fraction by `round((value % 1) * 100)`, then
carry at ≥ 95 or the greedy 50/25/15 subtraction with thresholds 38/20/8. -/
def convert_temperature2bytes (value : ℚ) : ℤ × ℤ :=
  let msb := pyInt value
  let decimal := pyRound (pyMod1 value * 100)
  if decimal ≥ 95 then
    (msb + 1, 0x00)
  else
    let (lsb, decimal) :=
      if decimal ≥ 38 then ((0b10000000 : ℤ), decimal - 50) else (0x00, decimal)
    let (lsb, decimal) :=
      if decimal ≥ 20 then (Int.lor lsb 0b01000000, decimal - 25) else (lsb, decimal)
    let lsb := if decimal ≥ 8 then Int.lor lsb 0b00100000 else lsb
    (msb, lsb)

/-- The fractional values representable in the chip's temperature format
(three weighted bits 0.50 / 0.25 / 0.15), scaled by 100. -/
def reprFracsC : List ℤ := [0, 15, 25, 40, 50, 65, 75, 90]

/-- A temperature is representable when it is an integer plus one of the
`reprFracsC` fractions. -/
def Representable (y : ℚ) : Prop :=
  ∃ k : ℤ, ∃ c ∈ reprFracsC, y = (k : ℚ) + (c : ℚ) / 100

/-- The branch structure of `convert_temperature2bytes` expressed as a
function of the integer part and the rounded centi-fraction (`encode_eq_pair`
shows the encoder equals this on nonnegative inputs). -/
def encode_pair (msb d : ℤ) : ℤ × ℤ :=
  if d ≥ 95 then
    (msb + 1, 0x00)
  else
    let (lsb, d) := if d ≥ 38 then ((0b10000000 : ℤ), d - 50) else (0x00, d)
    let (lsb, d) := if d ≥ 20 then (Int.lor lsb 0b01000000, d - 25) else (lsb, d)
    let lsb := if d ≥ 8 then Int.lor lsb 0b00100000 else lsb
    (msb, lsb)

/-- The fraction (scaled by 100) that `convert_temperature2bytes` followed by
`convert_bytes2temperature` produces from a rounded centi-fraction `d`
(100 encodes the carry into the next integer). -/
def bandC (d : ℤ) : ℤ :=
  if 95 ≤ d then 100
  else if 83 ≤ d then 90
  else if 70 ≤ d then 75
  else if 58 ≤ d then 65
  else if 38 ≤ d then 50
  else if 33 ≤ d then 40
  else if 20 ≤ d then 25
  else if 8 ≤ d then 15
  else 0

end conversions

namespace utilities

/-- Errors raised by `calculate_pwm_factors`: the explicit `ValueError` of the
out-of-range branch, and the `ZeroDivisionError` raised by `360000 / (2 * 0)`. -/
inductive PwmError
  | rangeError
  | zeroDivision
  deriving DecidableEq, Repr

/-- Embeds `calculate_pwm_factors` (src/feeph/emc2101/utilities.py): inside the
guard `0 <= pwm_frequency <= 180000` compute `value1 = 360000 / (2 * f)`
(a division by zero when `f = 0`), `pwm_d = ceil(value1 / 31)` and
`pwm_f = round(value1 / pwm_d)`; outside the guard raise `ValueError`. -/
def calculate_pwm_factors (pwm_frequency : ℤ) : Except PwmError (ℤ × ℤ) :=
  if 0 ≤ pwm_frequency ∧ pwm_frequency ≤ 180000 then
    if pwm_frequency = 0 then
      .error .zeroDivision
    else
      let value1 : ℚ := 360000 / (2 * (pwm_frequency : ℚ))
      let pwm_d : ℤ := ratCeil (value1 / 31)
      let pwm_f : ℤ := pyRound (value1 / (pwm_d : ℚ))
      .ok (pwm_d, pwm_f)
  else
    .error .rangeError

end utilities

namespace core

/-- The I2C register file of the EMC2101, as accessed by the driver through
`read_device_register` / `write_device_register(s)` (src/feeph/emc2101/core.py). -/
structure DevState where
  reg : ℕ → ℤ

/-- Read one register byte. -/
def read_device_register (st : DevState) (a : ℕ) : ℤ := st.reg a

/-- Write one register byte. -/
def write_device_register (st : DevState) (a : ℕ) (v : ℤ) : DevState :=
  ⟨fun b => if b = a then v else st.reg b⟩

/-- Write a batch of single-byte register writes, in list order. -/
def write_device_registers (st : DevState) (ws : List (ℕ × ℤ)) : DevState :=
  ws.foldl (fun s w => write_device_register s w.1 w.2) st

/-- Configured operating limits of `Emc2101_core` (`_step_min`, `_step_max`,
`_temp_min`, `_temp_max`); the constructor defaults are 0 / 63 / 0 / 100. -/
structure Limits where
  step_min : ℤ := 0
  step_max : ℤ := 63
  temp_min : ℤ := 0
  temp_max : ℤ := 100

/-- Embeds `Emc2101_core.is_lookup_table_enabled`:
`not read_device_register(0x4A) & 0b0010_0000`. -/
def is_lookup_table_enabled (st : DevState) : Bool :=
  Int.land (read_device_register st 0x4A) 0b00100000 == 0

/-- Embeds `Emc2101_core.enable_lookup_table` (src/feeph/emc2101/core.py,
current package): clear bit 5 of register 0x4A and unconditionally
return `True`; the external-sensor state is never consulted. -/
def enable_lookup_table (st : DevState) : Bool × DevState :=
  let value := read_device_register st 0x4A
  (true, write_device_register st 0x4A (Int.land value 0b11011111))

/-- Embeds `Emc2101_core.disable_lookup_table`: set bit 5 of register 0x4A. -/
def disable_lookup_table (st : DevState) : DevState :=
  let value := read_device_register st 0x4A
  write_device_register st 0x4A (Int.lor value 0b00100000)

/-- The `ValueError`s `update_lookup_table` can raise during validation. -/
inductive LutError
  | tooManyEntries
  | temperatureOutOfRange
  | stepOutOfRange
  deriving DecidableEq, Repr

/-- The per-entry validation loop of `update_lookup_table`: raise on the first
temperature or step outside the configured limits (dict iteration order). -/
def validate_entries (lim : Limits) : List (ℤ × ℤ) → Except LutError Unit
  | [] => .ok ()
  | (temp, step) :: rest =>
    if ¬(lim.temp_min ≤ temp ∧ temp ≤ lim.temp_max) then .error .temperatureOutOfRange
    else if ¬(lim.step_min ≤ step ∧ step ≤ lim.step_max) then .error .stepOutOfRange
    else validate_entries lim rest

/-- The write list built by the first loop of `update_lookup_table`: each
provided (temperature, step) pair goes to the successive register pair
`0x50 + offset` / `0x51 + offset`, with the offset advancing by 2. -/
def lut_value_writes (offset : ℕ) : List (ℤ × ℤ) → List (ℕ × ℤ)
  | [] => []
  | (temp, step) :: rest =>
    (0x50 + offset, temp) :: (0x51 + offset, step) :: lut_value_writes (offset + 2) rest

/-- The write list built by the second loop of `update_lookup_table`
(`for offset in range(offset, 16, 2)`): zero both bytes of every slot pair at
offsets `offset, offset + 2, …` below 16. -/
def lut_fill_writes (offset : ℕ) : List (ℕ × ℤ) :=
  if offset < 16 then
    (0x50 + offset, 0) :: (0x51 + offset, 0) :: lut_fill_writes (offset + 2)
  else []
termination_by 16 - offset

/-- Embeds `Emc2101_core.update_lookup_table` (src/feeph/emc2101/core.py): the
provided dict is modelled as its item list in iteration order. Validation
happens before any register access; then the enabled state is recorded and the
table disabled if needed, all 16 table bytes are written in one batch, and the
table is re-enabled if it was enabled before. A raised `ValueError` leaves the
state untouched (first component `.error`, state returned unchanged). -/
def update_lookup_table (lim : Limits) (st : DevState) (values : List (ℤ × ℤ)) :
    Except LutError Bool × DevState :=
  if 8 < values.length then (.error .tooManyEntries, st)
  else
    match validate_entries lim values with
    | .error e => (.error e, st)
    | .ok () =>
      let (reenable_lut, st) :=
        if is_lookup_table_enabled st then (true, disable_lookup_table st)
        else (false, st)
      let writes := lut_value_writes 0 values ++ lut_fill_writes (2 * values.length)
      let st := write_device_registers st writes
      let st := if reenable_lut then (enable_lookup_table st).2 else st
      (.ok true, st)

/-- The `ValueError` of `_convert_rpm2tach`. -/
inductive RpmError
  | valueError
  deriving DecidableEq, Repr

/-- Embeds `_convert_rpm2tach` (src/feeph/emc2101/core.py): reject rpm < 82,
compute `tach = int(5_400_000 / rpm)` — and then unconditionally overwrite it
with `tach = 4096` (verbatim from the source) before splitting into bytes. -/
def _convert_rpm2tach (rpm : ℤ) : Except RpmError (ℤ × ℤ) :=
  if rpm < 82 then .error .valueError
  else
    let tach : ℤ := pyInt (5400000 / (rpm : ℚ))
    let tach : ℤ := 4096
    let msb := (Int.land tach 0xFF00) >>> 8
    let lsb := Int.land tach 0x00FF
    .ok (msb, lsb)

/-- Embeds `Emc2101_core.configure_minimum_rpm`: convert the minimum RPM and
write the low/high tach limit bytes to registers 0x48/0x49. -/
def configure_minimum_rpm (st : DevState) (minimum_rpm : ℤ) : Except RpmError DevState :=
  match _convert_rpm2tach minimum_rpm with
  | .error e => .error e
  | .ok (msb, lsb) => .ok (write_device_registers st [(0x48, lsb), (0x49, msb)])

/-- A device state whose status register (0x02) has the diode-fault bit set
(external sensor absent or faulty) and whose fan-configuration register (0x4A)
has bit 5 set (lookup table disabled); all other registers read zero. -/
def faultedState : DevState :=
  ⟨fun a => if a = 0x02 then 0b00000100 else if a = 0x4A then 0b00100000 else 0⟩

end core

namespace legacy

/-- Embeds `Emc2101_core._has_sensor_fault` of the earlier snapshot
(src/src/i2c/emc2101/emc2101_core.py): diode-fault bit 2 of status register 0x02. -/
def _has_sensor_fault (st : core.DevState) : Bool :=
  Int.land (st.reg 0x02) 0b00000100 != 0

/-- Embeds `Emc2101_core.enable_lookup_table` of the earlier snapshot
(src/src/i2c/emc2101/emc2101_core.py): refuse with `False` and no register
write when the external sensor is faulty or missing. -/
def enable_lookup_table (st : core.DevState) : Bool × core.DevState :=
  if ¬_has_sensor_fault st then
    let value := core.read_device_register st 0x4A
    (true, core.write_device_register st 0x4A (Int.lor value 0b00100000))
  else
    (false, st)

end legacy

namespace calibration

/-- Outcome of the responsiveness probe inside `calibrate_pwm_fan`
(src/feeph/emc2101/calibration.py, lines 39-64). -/
inductive ProbeOutcome
  | noProfile
  | crash
  | proceed (step1 step2 : ℕ) (rpm1 rpm2 : ℤ)
  deriving DecidableEq, Repr

/-- Embeds the responsiveness probe of `calibrate_pwm_fan`: abort (`return
None`, i.e. `noProfile`) when the step list has at most 2 elements; otherwise
pick `step1 = steps_list[int(len/2)]` and `step2 = steps_list[-2]`, sample the
two RPMs (passed in as the device's responses), abort when either sample is
`None`, and abort when `rpm1 * 100 / rpm2` is not below 96. A zero `rpm2`
would raise `ZeroDivisionError` (`crash`). The duty-cycle percentages computed
alongside are only logged and are omitted here. -/
def probe_responsiveness (steps_list : List ℕ) (rpm1 rpm2 : Option ℤ) : ProbeOutcome :=
  if steps_list.length ≤ 2 then .noProfile
  else
    let step1 := steps_list.getD (steps_list.length / 2) 0
    let step2 := steps_list.getD (steps_list.length - 2) 0
    match rpm1, rpm2 with
    | some r1, some r2 =>
      if r2 = 0 then .crash
      else if (r1 : ℚ) * 100 / (r2 : ℚ) < 96 then .proceed step1 step2 r1 r2
      else .noProfile
    | _, _ => .noProfile

/-- Outcome of sampling one step of the duty-cycle-to-RPM mapping loop of
`calibrate_pwm_fan` (lines 67-98): `aborted` is the `return None` on an
unreadable sample; `crashZeroDiv` is the `ZeroDivisionError` when the window
average is zero; `crashUnbound` is the `UnboundLocalError` raised by the
for-else branch when the local variable `rpm` was never assigned;
`recorded settled rpm` is the `mappings.append` with the recorded RPM. -/
inductive StepSampleOutcome
  | aborted
  | crashZeroDiv
  | crashUnbound
  | recorded (settled : Bool) (rpm : ℤ)
  deriving DecidableEq, Repr

/-- Embeds the inner 24-sample settle loop for one step of `calibrate_pwm_fan`.
`samples i` is the device's answer to the i-th `get_rpm()` call; `rpm0` is the
value of the Python local `rpm` on entry (the value recorded for the last step
that settled, or unassigned at the first step); `readings` is the 3-slot
rolling window and `i` the sample index. When a sample settles (deviation from
the window average within ±1%) the window average rounded to a multiple of 5
is recorded; when the fuel (24 samples) runs out, the for-else branch records
the stale `rpm` variable — or crashes when it was never assigned. -/
def sample_step (samples : ℕ → Option ℤ) (rpm0 : Option ℤ) :
    ℕ → List ℤ → ℕ → StepSampleOutcome
  | 0, _, _ =>
    match rpm0 with
    | none => .crashUnbound
    | some r => .recorded false r
  | fuel + 1, readings, i =>
    match samples i with
    | none => .aborted
    | some rpm_cur =>
      let readings := readings.set (i % readings.length) rpm_cur
      let rpm_avg : ℚ := (readings.sum : ℚ) / (readings.length : ℚ)
      if rpm_avg = 0 then .crashZeroDiv
      else
        let deviation := (rpm_cur : ℚ) / rpm_avg
        if 99/100 ≤ deviation ∧ deviation ≤ 101/100 then
          .recorded true (pyRound (rpm_avg / 5) * 5)
        else
          sample_step samples rpm0 fuel readings (i + 1)

/-- One full step of the mapping loop: `readings = [99999, 99999, 99999]` and
up to 24 samples (`for i in range(24)`). -/
def run_step (samples : ℕ → Option ℤ) (rpm0 : Option ℤ) : StepSampleOutcome :=
  sample_step samples rpm0 24 [99999, 99999, 99999] 0

/-- Embeds `rpm_max = max([rpm for (_, _, rpm) in mappings])`; Python `max`
raises on an empty list, which cannot happen in `calibrate_pwm_fan` (the
default 0 here is never used by the theorems below). -/
def rpm_max_of (mappings : List (ℕ × ℤ × ℤ)) : ℤ :=
  match mappings.map (fun m => m.2.2) with
  | [] => 0
  | r :: rs => rs.foldl max r

/-- Embeds the pruning loop of `calibrate_pwm_fan` (lines 108-118): for every
recorded step except the last, keep it when its RPM plus `rpm_delta_min` is
still at most the next step's RPM, otherwise add its step id to the prune
list. The last step is never visited. -/
def prune_steps (rpm_delta_min : ℚ) : List (ℕ × ℤ × ℤ) → List ℕ
  | (step, _, rpm_this) :: m2 :: rest =>
    (if (rpm_this : ℚ) + rpm_delta_min ≤ (m2.2.2 : ℚ) then [] else [step])
      ++ prune_steps rpm_delta_min (m2 :: rest)
  | _ => []

/-- Embeds the compaction phase of `calibrate_pwm_fan` (lines 100-125):
`rpm_delta_min = rpm_max * 0.011`, prune, then keep the recorded
`(step, dutycycle, rpm)` triples whose step is not in the prune list
(the `steps` dict, in insertion order). -/
def compact_mappings (mappings : List (ℕ × ℤ × ℤ)) : List (ℕ × ℤ × ℤ) :=
  let rpm_max := rpm_max_of mappings
  let rpm_delta_min : ℚ := (rpm_max : ℚ) * (11/1000)
  let prune := prune_steps rpm_delta_min mappings
  mappings.filter (fun m => !(prune.contains m.1))

end calibration

namespace scs

/-- The deviation computed for one table entry by `convert_percent2step`
(src/feeph/emc2101/scs/pwm.py and src/feeph/emc2101/scs/dac.py, identical
code): `abs(1 - percent / percent_step)` with 1 substituted for a zero
`percent_step`. An entry is `(step, (percent_step, rpm_step))`. -/
def entry_deviation (percent : ℤ) (entry : ℕ × ℤ × Option ℤ) : ℚ :=
  let percent_step := if entry.2.1 = 0 then 1 else entry.2.1
  |1 - (percent : ℚ) / (percent_step : ℚ)|

/-- One iteration of the scan loop of `convert_percent2step`: keep the current
best (step, deviation) unless the new deviation is strictly smaller; the very
first entry always becomes the current best. -/
def scan_entry (percent : ℤ) (acc : Option (ℕ × ℚ)) (entry : ℕ × ℤ × Option ℤ) :
    Option (ℕ × ℚ) :=
  let deviation_new := entry_deviation percent entry
  match acc with
  | none => some (entry.1, deviation_new)
  | some (step_cur, deviation_cur) =>
    if deviation_new < deviation_cur then some (entry.1, deviation_new)
    else some (step_cur, deviation_cur)

/-- Embeds `PWM.convert_percent2step` / `DAC.convert_percent2step` (identical
bodies): scan all entries of the step table in iteration order and return the
step of the first entry achieving the minimal deviation (`None` for an empty
table). -/
def convert_percent2step (steps : List (ℕ × ℤ × Option ℤ)) (percent : ℤ) : Option ℕ :=
  (steps.foldl (scan_entry percent) none).map Prod.fst

end scs

theorem ratFloor_eq (q : ℚ) : ratFloor q = ⌊q⌋ := by
  rw [ratFloor, Rat.floor_def', Rat.floor_def]

theorem ratCeil_eq (q : ℚ) : ratCeil q = ⌈q⌉ := by
  rw [ratCeil, ratFloor_eq, Int.floor_neg, neg_neg]

-- ---------------------------------------------------------------------------
-- C10: _convert_rpm2tach discards the computed count and always returns 4096.
-- ---------------------------------------------------------------------------

/-- C10: for every rpm ≥ 82 the RPM-to-tach-limit conversion returns the
constant byte pair (0x10, 0x00) — the encoding of tach count 4096 — regardless
of the rpm argument, and consequently `configure_minimum_rpm` writes the same
tach limit registers (0x48 := 0x00, 0x49 := 0x10) for every valid minimum RPM. -/
theorem C10_minimum_rpm_constant_tach (rpm : ℤ) (h : 82 ≤ rpm) :
    core._convert_rpm2tach rpm = .ok (0x10, 0x00) ∧
    ∀ st : core.DevState, core.configure_minimum_rpm st rpm
      = .ok (core.write_device_registers st [(0x48, 0x00), (0x49, 0x10)]) := by
  have h1 : core._convert_rpm2tach rpm = .ok (0x10, 0x00) := by
    unfold core._convert_rpm2tach
    rw [if_neg (by omega)]
    decide
  refine ⟨h1, fun st => ?_⟩
  unfold core.configure_minimum_rpm
  rw [h1]

/-- Witness for C10 at rpm = 100. -/
theorem C10_minimum_rpm_constant_tach_witness :
    (82 ≤ (100 : ℤ)) ∧ core._convert_rpm2tach 100 = .ok (0x10, 0x00) ∧
    core.configure_minimum_rpm ⟨fun _ => 0⟩ 100
      = .ok (core.write_device_registers ⟨fun _ => 0⟩ [(0x48, 0x00), (0x49, 0x10)]) :=
  ⟨by norm_num, (C10_minimum_rpm_constant_tach 100 (by norm_num)).1,
    (C10_minimum_rpm_constant_tach 100 (by norm_num)).2 ⟨fun _ => 0⟩⟩

-- ---------------------------------------------------------------------------
-- C3: enabling the lookup table and the external-sensor requirement.
-- ---------------------------------------------------------------------------

/-- C3: demonstrates on a concrete device state with the diode-fault bit set
(sensor absent) that the current core's `enable_lookup_table` ignores the
fault — it returns `True` and enables the table — while the earlier snapshot's
`enable_lookup_table` refuses with `False` and leaves the state untouched, as
the claim (and the docstring both versions carry) requires. -/
theorem C3_enable_lookup_table_ignores_sensor_fault :
    legacy._has_sensor_fault core.faultedState = true
  ∧ core.is_lookup_table_enabled core.faultedState = false
  ∧ (core.enable_lookup_table core.faultedState).1 = true
  ∧ core.is_lookup_table_enabled (core.enable_lookup_table core.faultedState).2 = true
  ∧ legacy.enable_lookup_table core.faultedState = (false, core.faultedState) :=
  ⟨by decide, by decide, rfl, by decide, rfl⟩

-- ---------------------------------------------------------------------------
-- C4: calculate_pwm_factors and its behaviour at 0.
-- ---------------------------------------------------------------------------

/-- C4: inside (0, 180000] the PWM factors are computed as
`v = 360000 / (2 * f)`, `pwm_d = ceil(v / 31)`, `pwm_f = round(v / pwm_d)`
(with the examples from the spec); at exactly 0 the guard
`0 <= pwm_frequency <= 180000` admits the value and the function then raises
`ZeroDivisionError` instead of the range `ValueError`, which is only raised
for negative or too-large frequencies. -/
theorem C4_calculate_pwm_factors_behaviour :
    (∀ f : ℤ, 0 < f → f ≤ 180000 →
      utilities.calculate_pwm_factors f =
        .ok (ratCeil (360000 / (2 * (f : ℚ)) / 31),
             pyRound (360000 / (2 * (f : ℚ)) / ((ratCeil (360000 / (2 * (f : ℚ)) / 31) : ℤ) : ℚ))))
  ∧ utilities.calculate_pwm_factors 0 = .error .zeroDivision
  ∧ utilities.calculate_pwm_factors 22500 = .ok (1, 8)
  ∧ utilities.calculate_pwm_factors 45000 = .ok (1, 4)
  ∧ utilities.calculate_pwm_factors 1000 = .ok (6, 30)
  ∧ utilities.calculate_pwm_factors (-1) = .error .rangeError
  ∧ utilities.calculate_pwm_factors 180001 = .error .rangeError := by
  refine ⟨?_, ?_, ?_, ?_, ?_, ?_, ?_⟩
  · intro f h1 h2
    unfold utilities.calculate_pwm_factors
    rw [if_pos ⟨by omega, h2⟩, if_neg (by omega)]
  · norm_num [utilities.calculate_pwm_factors]
  · norm_num [utilities.calculate_pwm_factors, ratCeil, ratFloor_eq, pyRound]
  · norm_num [utilities.calculate_pwm_factors, ratCeil, ratFloor_eq, pyRound]
  · norm_num [utilities.calculate_pwm_factors, ratCeil, ratFloor_eq, pyRound]
  · norm_num [utilities.calculate_pwm_factors]
  · norm_num [utilities.calculate_pwm_factors]

/-- Witness for C4 at f = 22500: the quantified formula instantiates and
evaluates to the spec's example pair (1, 8). -/
theorem C4_calculate_pwm_factors_witness :
    utilities.calculate_pwm_factors 22500
      = .ok (ratCeil (360000 / (2 * ((22500 : ℤ) : ℚ)) / 31),
             pyRound (360000 / (2 * ((22500 : ℤ) : ℚ))
               / ((ratCeil (360000 / (2 * ((22500 : ℤ) : ℚ)) / 31) : ℤ) : ℚ)))
  ∧ utilities.calculate_pwm_factors 22500 = .ok (1, 8) := by
  have h := C4_calculate_pwm_factors_behaviour.1 22500 (by norm_num) (by norm_num)
  refine ⟨h, h.trans ?_⟩
  norm_num [ratCeil, ratFloor_eq, pyRound]

-- ---------------------------------------------------------------------------
-- C1: compaction on the RPM list [100, 101, 200, 400].
-- ---------------------------------------------------------------------------

/-- C1 counterexample: on the recorded steps with RPMs [100, 101, 200, 400]
the compaction prunes the entry with RPM 100 (its RPM plus the 4.4 delta is
not ≤ 101) and keeps 101, 200 and 400 — contradicting the claim that the 101
entry is pruned while the 100 entry survives. -/
theorem C1_compaction_counterexample :
    calibration.compact_mappings [(0, 0, 100), (1, 25, 101), (2, 50, 200), (3, 75, 400)]
      = [(1, 25, 101), (2, 50, 200), (3, 75, 400)]
  ∧ (0, 0, 100) ∉
      calibration.compact_mappings [(0, 0, 100), (1, 25, 101), (2, 50, 200), (3, 75, 400)] := by
  have h : calibration.compact_mappings [(0, 0, 100), (1, 25, 101), (2, 50, 200), (3, 75, 400)]
      = [(1, 25, 101), (2, 50, 200), (3, 75, 400)] := by
    norm_num [calibration.compact_mappings, calibration.rpm_max_of, calibration.prune_steps]
  exact ⟨h, by rw [h]; decide⟩

/-- C1 amended: with RPMs [100, 101, 200, 400] and rpm_max = 400
(min_delta = 0.011 · 400 = 4.4), the walk rule prunes exactly the entry with
RPM 100 (the step at index 0), while the entries with RPMs 101, 200 and 400
survive into the final step map. -/
theorem C1_compaction_amended :
    calibration.prune_steps ((400 : ℚ) * (11 / 1000))
        [(0, 0, 100), (1, 25, 101), (2, 50, 200), (3, 75, 400)] = [0]
  ∧ calibration.compact_mappings [(0, 0, 100), (1, 25, 101), (2, 50, 200), (3, 75, 400)]
      = [(1, 25, 101), (2, 50, 200), (3, 75, 400)] := by
  constructor
  · norm_num [calibration.prune_steps]
  · norm_num [calibration.compact_mappings, calibration.rpm_max_of, calibration.prune_steps]

-- ---------------------------------------------------------------------------
-- C6: the responsiveness probe's abort conditions.
-- ---------------------------------------------------------------------------

/-- C6 counterexample: with the four-element step list [0, 1, 2, 3] the middle
element and the second-highest element coincide (both are 2), yet the probe
does not return "no profile": with samples 90 and 100 it proceeds to curve
mapping, contradicting the claim that coinciding steps are an abort case. -/
theorem C6_probe_counterexample :
    [0, 1, 2, 3].getD ([0, 1, 2, 3].length / 2) 0
      = [0, 1, 2, 3].getD ([0, 1, 2, 3].length - 2) 0
  ∧ calibration.probe_responsiveness [0, 1, 2, 3] (some 90) (some 100)
      = .proceed 2 2 90 100
  ∧ calibration.probe_responsiveness [0, 1, 2, 3] (some 90) (some 100)
      ≠ .noProfile := by
  have h : calibration.probe_responsiveness [0, 1, 2, 3] (some 90) (some 100)
      = .proceed 2 2 90 100 := by
    norm_num [calibration.probe_responsiveness]
  exact ⟨by decide, h, by rw [h]; decide⟩

/-- C6 amended: the probe returns "no profile" (no exception) exactly when the
step list has at most 2 elements (the code tests `len(steps_list) <= 2`, not
whether the two chosen steps coincide), or either RPM sample is unreadable, or
the mid-step RPM times 100 divided by the (nonzero) high-step RPM is at least
96; otherwise calibration proceeds to curve mapping (a zero high-step RPM
would crash instead). -/
theorem C6_probe_noProfile_iff (steps_list : List ℕ) (r1 r2 : Option ℤ) :
    calibration.probe_responsiveness steps_list r1 r2 = .noProfile ↔
      (steps_list.length ≤ 2 ∨ r1 = none ∨ r2 = none ∨
        ∃ a b : ℤ, r1 = some a ∧ r2 = some b ∧ b ≠ 0 ∧ 96 ≤ (a : ℚ) * 100 / (b : ℚ)) := by
  by_cases hl : steps_list.length ≤ 2
  · simp [calibration.probe_responsiveness, hl]
  · cases r1 with
    | none => simp [calibration.probe_responsiveness, hl]
    | some a =>
      cases r2 with
      | none => simp [calibration.probe_responsiveness, hl]
      | some b =>
        by_cases hb : b = 0
        · subst hb
          simp [calibration.probe_responsiveness, hl]
        · by_cases hr : (a : ℚ) * 100 / (b : ℚ) < 96
          · simp [calibration.probe_responsiveness, hl, hb, hr, not_le.mpr hr]
          · simp only [calibration.probe_responsiveness, if_neg hl, if_neg hb, if_neg hr]
            simp [hl, hb, not_lt.mp hr]

-- ---------------------------------------------------------------------------
-- C9: convert_percent2step selects a step of minimal deviation.
-- ---------------------------------------------------------------------------

theorem foldl_scan_min (percent : ℤ) :
    ∀ (l : List (ℕ × ℤ × Option ℤ)) (s0 : ℕ) (d0 : ℚ),
      ∃ s d, l.foldl (scs.scan_entry percent) (some (s0, d0)) = some (s, d) ∧
        d ≤ d0 ∧ (∀ e ∈ l, d ≤ scs.entry_deviation percent e) ∧
        ((s = s0 ∧ d = d0) ∨ ∃ e ∈ l, s = e.1 ∧ d = scs.entry_deviation percent e) := by
  intro l
  induction l with
  | nil =>
    intro s0 d0
    exact ⟨s0, d0, rfl, le_refl _, by simp, Or.inl ⟨rfl, rfl⟩⟩
  | cons e t ih =>
    intro s0 d0
    rw [List.foldl_cons]
    by_cases hlt : scs.entry_deviation percent e < d0
    · have hs : scs.scan_entry percent (some (s0, d0)) e
          = some (e.1, scs.entry_deviation percent e) := by
        simp [scs.scan_entry, hlt]
      rw [hs]
      obtain ⟨s, d, h1, h2, h3, h4⟩ := ih e.1 (scs.entry_deviation percent e)
      refine ⟨s, d, h1, h2.trans hlt.le, ?_, ?_⟩
      · intro e' he'
        rcases List.mem_cons.mp he' with rfl | h
        · exact h2
        · exact h3 e' h
      · rcases h4 with ⟨hs', hd⟩ | ⟨e', he', hs', hd⟩
        · exact Or.inr ⟨e, List.mem_cons_self e t, hs', hd⟩
        · exact Or.inr ⟨e', List.mem_cons_of_mem e he', hs', hd⟩
    · have hs : scs.scan_entry percent (some (s0, d0)) e = some (s0, d0) := by
        simp [scs.scan_entry, hlt]
      rw [hs]
      obtain ⟨s, d, h1, h2, h3, h4⟩ := ih s0 d0
      refine ⟨s, d, h1, h2, ?_, ?_⟩
      · intro e' he'
        rcases List.mem_cons.mp he' with rfl | h
        · exact h2.trans (not_lt.mp hlt)
        · exact h3 e' h
      · rcases h4 with ⟨hs', hd⟩ | ⟨e', he', hs', hd⟩
        · exact Or.inl ⟨hs', hd⟩
        · exact Or.inr ⟨e', List.mem_cons_of_mem e he', hs', hd⟩

/-- C9: for every non-empty step table and every target percent,
`convert_percent2step` returns the step of a table entry whose deviation
`|1 - percent / percent_step|` (with 1 substituted for a zero `percent_step`)
is minimal over all entries; in particular, given steps
{3: (34, 409), 4: (40, 479)}, input 36 returns step 3 and input 37 returns
step 4. -/
theorem C9_percent_to_step_minimizes :
    (∀ (steps : List (ℕ × ℤ × Option ℤ)) (percent : ℤ), steps ≠ [] →
      ∃ e ∈ steps, scs.convert_percent2step steps percent = some e.1 ∧
        ∀ e' ∈ steps, scs.entry_deviation percent e ≤ scs.entry_deviation percent e')
  ∧ scs.convert_percent2step [(3, 34, some 409), (4, 40, some 479)] 36 = some 3
  ∧ scs.convert_percent2step [(3, 34, some 409), (4, 40, some 479)] 37 = some 4 := by
  refine ⟨?_, ?_, ?_⟩
  · intro steps percent hne
    cases steps with
    | nil => exact absurd rfl hne
    | cons e t =>
      unfold scs.convert_percent2step
      rw [List.foldl_cons,
        show scs.scan_entry percent none e = some (e.1, scs.entry_deviation percent e) by
          simp [scs.scan_entry]]
      obtain ⟨s, d, h1, h2, h3, h4⟩ := foldl_scan_min percent t e.1 (scs.entry_deviation percent e)
      rw [h1]
      rcases h4 with ⟨hs', hd⟩ | ⟨e', he', hs', hd⟩
      · refine ⟨e, List.mem_cons_self e t, by simp [hs'], ?_⟩
        intro e'' he''
        rcases List.mem_cons.mp he'' with rfl | h
        · exact le_refl _
        · exact hd ▸ h3 e'' h
      · refine ⟨e', List.mem_cons_of_mem e he', by simp [hs'], ?_⟩
        intro e'' he''
        rcases List.mem_cons.mp he'' with rfl | h
        · exact hd ▸ h2
        · exact hd ▸ h3 e'' h
  · norm_num [scs.convert_percent2step, scs.scan_entry, scs.entry_deviation,
      abs_of_pos, abs_of_nonneg]
  · norm_num [scs.convert_percent2step, scs.scan_entry, scs.entry_deviation,
      abs_of_pos, abs_of_nonneg]

/-- Witness for C9 at the two-entry DAC sub-table and percent 36. -/
theorem C9_percent_to_step_minimizes_witness :
    (([(3, 34, some 409), (4, 40, some 479)] : List (ℕ × ℤ × Option ℤ)) ≠ [])
  ∧ ∃ e ∈ ([(3, 34, some 409), (4, 40, some 479)] : List (ℕ × ℤ × Option ℤ)),
      scs.convert_percent2step [(3, 34, some 409), (4, 40, some 479)] 36 = some e.1 ∧
        ∀ e' ∈ ([(3, 34, some 409), (4, 40, some 479)] : List (ℕ × ℤ × Option ℤ)),
          scs.entry_deviation 36 e ≤ scs.entry_deviation 36 e' :=
  ⟨by simp, C9_percent_to_step_minimizes.1 [(3, 34, some 409), (4, 40, some 479)] 36 (by simp)⟩

-- ---------------------------------------------------------------------------
-- Register-write helper lemmas for C7 / C8.
-- ---------------------------------------------------------------------------

theorem reg_write_eq (st : core.DevState) (a : ℕ) (v : ℤ) :
    (core.write_device_register st a v).reg a = v := if_pos rfl

theorem reg_write_ne (st : core.DevState) (a b : ℕ) (v : ℤ) (h : b ≠ a) :
    (core.write_device_register st a v).reg b = st.reg b := if_neg h

theorem write_device_registers_cons (st : core.DevState) (w : ℕ × ℤ) (ws : List (ℕ × ℤ)) :
    core.write_device_registers st (w :: ws)
      = core.write_device_registers (core.write_device_register st w.1 w.2) ws := rfl

theorem write_device_registers_append (st : core.DevState) (ws1 ws2 : List (ℕ × ℤ)) :
    core.write_device_registers st (ws1 ++ ws2)
      = core.write_device_registers (core.write_device_registers st ws1) ws2 :=
  List.foldl_append _ _ _ _

theorem reg_write_device_registers_notin (a : ℕ) :
    ∀ (ws : List (ℕ × ℤ)) (st : core.DevState), (∀ p ∈ ws, p.1 ≠ a) →
      (core.write_device_registers st ws).reg a = st.reg a := by
  intro ws
  induction ws with
  | nil => intro st _; rfl
  | cons w t ih =>
    intro st h
    rw [write_device_registers_cons,
      ih _ (fun p hp => h p (List.mem_cons_of_mem w hp)),
      reg_write_ne _ _ _ _ (fun hh => (h w (List.mem_cons_self w t)) hh.symm)]

theorem validate_entries_error (lim : core.Limits) :
    ∀ (values : List (ℤ × ℤ)),
      (∃ p ∈ values, ¬(lim.temp_min ≤ p.1 ∧ p.1 ≤ lim.temp_max) ∨
        ¬(lim.step_min ≤ p.2 ∧ p.2 ≤ lim.step_max)) →
      ∃ e, core.validate_entries lim values = .error e := by
  intro values
  induction values with
  | nil => rintro ⟨p, hp, _⟩; exact absurd hp (List.not_mem_nil p)
  | cons q t ih =>
    rintro ⟨p, hp, hbad⟩
    obtain ⟨qt, qs⟩ := q
    unfold core.validate_entries
    by_cases h1 : lim.temp_min ≤ qt ∧ qt ≤ lim.temp_max
    · by_cases h2 : lim.step_min ≤ qs ∧ qs ≤ lim.step_max
      · rw [if_neg (by simpa using h1), if_neg (by simpa using h2)]
        rcases List.mem_cons.mp hp with rfl | hmem
        · rcases hbad with hb | hb
          · exact absurd h1 hb
          · exact absurd h2 hb
        · exact ih ⟨p, hmem, hbad⟩
      · rw [if_neg (by simpa using h1), if_pos h2]
        exact ⟨_, rfl⟩
    · rw [if_pos h1]
      exact ⟨_, rfl⟩

theorem validate_entries_ok (lim : core.Limits) :
    ∀ (values : List (ℤ × ℤ)),
      (∀ p ∈ values, (lim.temp_min ≤ p.1 ∧ p.1 ≤ lim.temp_max) ∧
        (lim.step_min ≤ p.2 ∧ p.2 ≤ lim.step_max)) →
      core.validate_entries lim values = .ok () := by
  intro values
  induction values with
  | nil => intro _; rfl
  | cons q t ih =>
    intro h
    obtain ⟨qt, qs⟩ := q
    unfold core.validate_entries
    have hq := h (qt, qs) (List.mem_cons_self _ t)
    rw [if_neg (by simpa using hq.1), if_neg (by simpa using hq.2)]
    exact ih (fun p hp => h p (List.mem_cons_of_mem _ hp))

theorem lut_value_writes_addr_bound :
    ∀ (vs : List (ℤ × ℤ)) (off : ℕ) (p : ℕ × ℤ), p ∈ core.lut_value_writes off vs →
      0x50 + off ≤ p.1 ∧ p.1 < 0x50 + off + 2 * vs.length := by
  intro vs
  induction vs with
  | nil =>
    intro off p hp
    simp [core.lut_value_writes] at hp
  | cons v t ih =>
    intro off p hp
    obtain ⟨vt, vstep⟩ := v
    unfold core.lut_value_writes at hp
    rcases List.mem_cons.mp hp with rfl | hp'
    · constructor <;> simp <;> omega
    · rcases List.mem_cons.mp hp' with rfl | hp'' 
      · constructor <;> simp <;> omega
      · have := ih (off + 2) p hp''
        constructor <;> [omega ; (simp only [List.length_cons] ; omega)]

theorem lut_fill_writes_addr_bound :
    ∀ (off : ℕ), off % 2 = 0 → ∀ p ∈ core.lut_fill_writes off,
      0x50 + off ≤ p.1 ∧ p.1 < 0x50 + 16 := by
  have key : ∀ (k off : ℕ), 16 - off ≤ k → off % 2 = 0 → ∀ p ∈ core.lut_fill_writes off,
      0x50 + off ≤ p.1 ∧ p.1 < 0x50 + 16 := by
    intro k
    induction k with
    | zero =>
      intro off hk _ p hp
      rw [core.lut_fill_writes, if_neg (by omega)] at hp
      exact absurd hp (List.not_mem_nil p)
    | succ k ih =>
      intro off hk hev p hp
      by_cases hlt : off < 16
      · rw [core.lut_fill_writes, if_pos hlt] at hp
        rcases List.mem_cons.mp hp with rfl | hp1
        · exact ⟨le_refl _, by show 0x50 + off < 0x50 + 16; omega⟩
        · rcases List.mem_cons.mp hp1 with rfl | hp2
          · exact ⟨by show 0x50 + off ≤ 0x51 + off; omega,
              by show 0x51 + off < 0x50 + 16; omega⟩
          · obtain ⟨h1, h2⟩ := ih (off + 2) (by omega) (by omega) p hp2
            exact ⟨by omega, h2⟩
      · rw [core.lut_fill_writes, if_neg hlt] at hp
        exact absurd hp (List.not_mem_nil p)
  exact fun off hev => key 16 off (by omega) hev

theorem reg_after_lut_value_writes :
    ∀ (vs : List (ℤ × ℤ)) (off : ℕ) (st : core.DevState) (i : ℕ) (hi : i < vs.length),
      (core.write_device_registers st (core.lut_value_writes off vs)).reg (0x50 + off + 2 * i)
        = (vs.get ⟨i, hi⟩).1 ∧
      (core.write_device_registers st (core.lut_value_writes off vs)).reg (0x51 + off + 2 * i)
        = (vs.get ⟨i, hi⟩).2 := by
  intro vs
  induction vs with
  | nil =>
    intro off st i hi
    exact absurd hi (by simp)
  | cons v t ih =>
    intro off st i hi
    obtain ⟨vt, vstep⟩ := v
    show (core.write_device_registers st
        ((0x50 + off, vt) :: (0x51 + off, vstep) :: core.lut_value_writes (off + 2) t)).reg _ = _
      ∧ (core.write_device_registers st
        ((0x50 + off, vt) :: (0x51 + off, vstep) :: core.lut_value_writes (off + 2) t)).reg _ = _
    rw [write_device_registers_cons, write_device_registers_cons]
    cases i with
    | zero =>
      have hrest : ∀ p ∈ core.lut_value_writes (off + 2) t, p.1 ≠ 0x50 + off + 2 * 0 := by
        intro p hp
        have := lut_value_writes_addr_bound t (off + 2) p hp
        omega
      have hrest1 : ∀ p ∈ core.lut_value_writes (off + 2) t, p.1 ≠ 0x51 + off + 2 * 0 := by
        intro p hp
        have := lut_value_writes_addr_bound t (off + 2) p hp
        omega
      rw [reg_write_device_registers_notin _ _ _ hrest,
        reg_write_device_registers_notin _ _ _ hrest1]
      constructor
      · show (core.write_device_register _ (0x51 + off) vstep).reg (0x50 + off + 2 * 0) = vt
        rw [reg_write_ne _ _ _ _ (by omega)]
        show (core.write_device_register _ (0x50 + off) vt).reg (0x50 + off + 2 * 0) = vt
        have : 0x50 + off + 2 * 0 = 0x50 + off := by omega
        rw [this, reg_write_eq]
      · show (core.write_device_register _ (0x51 + off) vstep).reg (0x51 + off + 2 * 0) = vstep
        have : 0x51 + off + 2 * 0 = 0x51 + off := by omega
        rw [this, reg_write_eq]
    | succ i1 =>
      have e1 : 0x50 + off + 2 * (i1 + 1) = 0x50 + (off + 2) + 2 * i1 := by omega
      have e2 : 0x51 + off + 2 * (i1 + 1) = 0x51 + (off + 2) + 2 * i1 := by omega
      rw [e1, e2]
      have hi1 : i1 < t.length := by simpa using hi
      exact ih (off + 2) _ i1 hi1

theorem reg_after_lut_fill_writes :
    ∀ (k off : ℕ), 16 - off ≤ k → off % 2 = 0 →
      ∀ (st : core.DevState) (j : ℕ), off ≤ 2 * j → 2 * j < 16 →
      (core.write_device_registers st (core.lut_fill_writes off)).reg (0x50 + 2 * j) = 0 ∧
      (core.write_device_registers st (core.lut_fill_writes off)).reg (0x51 + 2 * j) = 0 := by
  intro k
  induction k with
  | zero =>
    intro off hk hev st j hj1 hj2
    omega
  | succ k ih =>
    intro off hk hev st j hj1 hj2
    have hlt : off < 16 := by omega
    rw [core.lut_fill_writes, if_pos hlt, write_device_registers_cons,
      write_device_registers_cons]
    by_cases hoj : 2 * j = off
    · subst hoj
      have hrest : ∀ p ∈ core.lut_fill_writes (2 * j + 2), p.1 ≠ 0x50 + 2 * j := by
        intro p hp
        have := lut_fill_writes_addr_bound (2 * j + 2) (by omega) p hp
        omega
      have hrest1 : ∀ p ∈ core.lut_fill_writes (2 * j + 2), p.1 ≠ 0x51 + 2 * j := by
        intro p hp
        have := lut_fill_writes_addr_bound (2 * j + 2) (by omega) p hp
        omega
      rw [reg_write_device_registers_notin _ _ _ hrest,
        reg_write_device_registers_notin _ _ _ hrest1]
      constructor
      · show (core.write_device_register _ (0x51 + 2 * j) 0).reg (0x50 + 2 * j) = 0
        rw [reg_write_ne _ _ _ _ (by omega)]
        exact reg_write_eq _ _ _
      · exact reg_write_eq _ _ _
    · exact ih (off + 2) (by omega) (by omega) _ j (by omega) hj2

-- ---------------------------------------------------------------------------
-- C7: validation failures block all hardware access.
-- ---------------------------------------------------------------------------

/-- C7: for every input mapping with more than 8 entries, or containing any
temperature or step outside the configured device bounds, the lookup-table
update fails with a validation `ValueError` and the device state is returned
unchanged — validation runs before the first register access, so no write is
attempted. -/
theorem C7_update_validation_blocks_writes (lim : core.Limits) (st : core.DevState)
    (values : List (ℤ × ℤ))
    (h : 8 < values.length ∨ ∃ p ∈ values,
      ¬(lim.temp_min ≤ p.1 ∧ p.1 ≤ lim.temp_max) ∨
      ¬(lim.step_min ≤ p.2 ∧ p.2 ≤ lim.step_max)) :
    ∃ e, core.update_lookup_table lim st values = (.error e, st) := by
  unfold core.update_lookup_table
  by_cases hlen : 8 < values.length
  · rw [if_pos hlen]
    exact ⟨.tooManyEntries, rfl⟩
  · rw [if_neg hlen]
    rcases h with h | h
    · exact absurd h hlen
    · obtain ⟨e, he⟩ := validate_entries_error lim values h
      rw [he]
      exact ⟨e, rfl⟩

/-- Witness for C7: a nine-entry mapping (all values in range) is rejected
with the state unchanged. -/
theorem C7_update_validation_blocks_writes_witness :
    (8 < ([(0, 0), (1, 0), (2, 0), (3, 0), (4, 0), (5, 0), (6, 0), (7, 0), (8, 0)]
        : List (ℤ × ℤ)).length
      ∨ ∃ p ∈ ([(0, 0), (1, 0), (2, 0), (3, 0), (4, 0), (5, 0), (6, 0), (7, 0), (8, 0)]
        : List (ℤ × ℤ)),
        ¬(core.Limits.temp_min {} ≤ p.1 ∧ p.1 ≤ core.Limits.temp_max {}) ∨
        ¬(core.Limits.step_min {} ≤ p.2 ∧ p.2 ≤ core.Limits.step_max {}))
  ∧ ∃ e, core.update_lookup_table {} ⟨fun _ => 0⟩
      [(0, 0), (1, 0), (2, 0), (3, 0), (4, 0), (5, 0), (6, 0), (7, 0), (8, 0)]
      = (.error e, ⟨fun _ => 0⟩) :=
  ⟨Or.inl (by norm_num),
    C7_update_validation_blocks_writes {} ⟨fun _ => 0⟩ _ (Or.inl (by norm_num))⟩

theorem land_land_223_32 (v : ℤ) : Int.land (Int.land v 223) 32 = 0 := by
  cases v with
  | ofNat n =>
    show Int.ofNat ((n &&& 223) &&& 32) = 0
    rw [Nat.and_assoc, show (223 &&& 32 : ℕ) = 0 by decide]
    simp
  | negSucc m =>
    show Int.ofNat (Nat.ldiff 223 m &&& 32) = 0
    have h5 : (Nat.ldiff 223 m).testBit 5 = false := by
      have hd : Nat.ldiff 223 m = Nat.bitwise (fun a b => a && !b) 223 m := rfl
      rw [hd, Nat.testBit_bitwise (by decide)]
      rw [show Nat.testBit 223 5 = false by decide]
      simp
    rw [show (32 : ℕ) = 2 ^ 5 from rfl, Nat.and_two_pow, h5]
    simp

-- ---------------------------------------------------------------------------
-- C8: a successful update writes all 16 table bytes and restores the
-- enabled state.
-- ---------------------------------------------------------------------------

/-- C8: after every successful lookup-table update, all 16 underlying table
bytes have been written — the provided (temperature, step) pairs into
successive register pairs from the table base 0x50 and zeros into every
remaining slot byte (an empty mapping zero-fills all 16 bytes) — and the
table's enabled state equals its state before the call. -/
theorem C8_update_writes_all_slots (lim : core.Limits) (st : core.DevState)
    (values : List (ℤ × ℤ)) (hlen : values.length ≤ 8)
    (hok : ∀ p ∈ values, (lim.temp_min ≤ p.1 ∧ p.1 ≤ lim.temp_max) ∧
      (lim.step_min ≤ p.2 ∧ p.2 ≤ lim.step_max)) :
    ∃ st' : core.DevState,
      core.update_lookup_table lim st values = (.ok true, st')
      ∧ (∀ i (hi : i < values.length),
          st'.reg (0x50 + 2 * i) = (values.get ⟨i, hi⟩).1 ∧
          st'.reg (0x51 + 2 * i) = (values.get ⟨i, hi⟩).2)
      ∧ (∀ j, values.length ≤ j → j < 8 →
          st'.reg (0x50 + 2 * j) = 0 ∧ st'.reg (0x51 + 2 * j) = 0)
      ∧ core.is_lookup_table_enabled st' = core.is_lookup_table_enabled st := by
  have hfill_ne_lut : ∀ i, i < values.length →
      (∀ p ∈ core.lut_fill_writes (2 * values.length), p.1 ≠ 0x50 + 2 * i) ∧
      (∀ p ∈ core.lut_fill_writes (2 * values.length), p.1 ≠ 0x51 + 2 * i) := by
    intro i hi
    constructor <;> intro p hp <;>
      · have := lut_fill_writes_addr_bound (2 * values.length) (by omega) p hp
        omega
  have hws_ne_4A : ∀ p ∈ core.lut_value_writes 0 values
      ++ core.lut_fill_writes (2 * values.length), p.1 ≠ 0x4A := by
    intro p hp
    rcases List.mem_append.mp hp with hp1 | hp2
    · have := lut_value_writes_addr_bound values 0 p hp1
      omega
    · have := lut_fill_writes_addr_bound (2 * values.length) (by omega) p hp2
      omega
  cases hen : core.is_lookup_table_enabled st with
  | false =>
    refine ⟨core.write_device_registers st
      (core.lut_value_writes 0 values ++ core.lut_fill_writes (2 * values.length)),
      ?_, ?_, ?_, ?_⟩
    · unfold core.update_lookup_table
      rw [if_neg (by omega), validate_entries_ok lim values hok, hen]
      rfl
    · intro i hi
      rw [write_device_registers_append,
        reg_write_device_registers_notin _ _ _ (hfill_ne_lut i hi).1,
        reg_write_device_registers_notin _ _ _ (hfill_ne_lut i hi).2]
      have e1 : 0x50 + 2 * i = 0x50 + 0 + 2 * i := by omega
      have e2 : 0x51 + 2 * i = 0x51 + 0 + 2 * i := by omega
      rw [e1, e2]
      exact reg_after_lut_value_writes values 0 st i hi
    · intro j hj1 hj2
      rw [write_device_registers_append]
      exact reg_after_lut_fill_writes 16 (2 * values.length) (by omega) (by omega)
        _ j (by omega) (by omega)
    · unfold core.is_lookup_table_enabled core.read_device_register
      rw [write_device_registers_append,
        reg_write_device_registers_notin _ _ _
          (fun p hp => hws_ne_4A p (by
            rcases List.mem_append.mp (List.mem_append_right _ hp) with h | h
            · exact List.mem_append_left _ h
            · exact List.mem_append_right _ h)),
        reg_write_device_registers_notin _ _ _
          (fun p hp => hws_ne_4A p (List.mem_append_left _ hp))]
      unfold core.is_lookup_table_enabled core.read_device_register at hen
      exact hen
  | true =>
    refine ⟨core.write_device_register
        (core.write_device_registers (core.disable_lookup_table st)
          (core.lut_value_writes 0 values ++ core.lut_fill_writes (2 * values.length)))
        0x4A
        (Int.land ((core.write_device_registers (core.disable_lookup_table st)
          (core.lut_value_writes 0 values
            ++ core.lut_fill_writes (2 * values.length))).reg 0x4A) 0b11011111),
      ?_, ?_, ?_, ?_⟩
    · unfold core.update_lookup_table
      rw [if_neg (by omega), validate_entries_ok lim values hok, hen]
      rfl
    · intro i hi
      rw [reg_write_ne _ _ _ _ (by omega), reg_write_ne _ _ _ _ (by omega),
        write_device_registers_append,
        reg_write_device_registers_notin _ _ _ (hfill_ne_lut i hi).1,
        reg_write_device_registers_notin _ _ _ (hfill_ne_lut i hi).2]
      have e1 : 0x50 + 2 * i = 0x50 + 0 + 2 * i := by omega
      have e2 : 0x51 + 2 * i = 0x51 + 0 + 2 * i := by omega
      rw [e1, e2]
      exact reg_after_lut_value_writes values 0 _ i hi
    · intro j hj1 hj2
      rw [reg_write_ne _ _ _ _ (by omega), reg_write_ne _ _ _ _ (by omega),
        write_device_registers_append]
      exact reg_after_lut_fill_writes 16 (2 * values.length) (by omega) (by omega)
        _ j (by omega) (by omega)
    · unfold core.is_lookup_table_enabled core.read_device_register
      rw [reg_write_eq, land_land_223_32]
      rfl

/-- Witness for C8: updating with the two-entry mapping {10: 3, 20: 5} on an
all-zero register file (whose lookup table reads as enabled, exercising the
disable / re-enable path). -/
theorem C8_update_writes_all_slots_witness :
    (([(10, 3), (20, 5)] : List (ℤ × ℤ)).length ≤ 8
      ∧ ∀ p ∈ ([(10, 3), (20, 5)] : List (ℤ × ℤ)),
        (core.Limits.temp_min {} ≤ p.1 ∧ p.1 ≤ core.Limits.temp_max {}) ∧
        (core.Limits.step_min {} ≤ p.2 ∧ p.2 ≤ core.Limits.step_max {}))
  ∧ ∃ st' : core.DevState,
      core.update_lookup_table {} ⟨fun _ => 0⟩ [(10, 3), (20, 5)] = (.ok true, st')
      ∧ (∀ i (hi : i < ([(10, 3), (20, 5)] : List (ℤ × ℤ)).length),
          st'.reg (0x50 + 2 * i) = (([(10, 3), (20, 5)] : List (ℤ × ℤ)).get ⟨i, hi⟩).1 ∧
          st'.reg (0x51 + 2 * i) = (([(10, 3), (20, 5)] : List (ℤ × ℤ)).get ⟨i, hi⟩).2)
      ∧ (∀ j, ([(10, 3), (20, 5)] : List (ℤ × ℤ)).length ≤ j → j < 8 →
          st'.reg (0x50 + 2 * j) = 0 ∧ st'.reg (0x51 + 2 * j) = 0)
      ∧ core.is_lookup_table_enabled st'
          = core.is_lookup_table_enabled ⟨fun _ => 0⟩ :=
  ⟨⟨by norm_num, by decide⟩,
    C8_update_writes_all_slots {} ⟨fun _ => 0⟩ [(10, 3), (20, 5)] (by norm_num) (by decide)⟩

-- ---------------------------------------------------------------------------
-- C5: the settle loop and the stale `rpm` variable in the for-else branch.
-- ---------------------------------------------------------------------------

/-- C5: evaluates the settle loop of the curve-mapping phase. With constant
samples (1000 everywhere) the fan settles and the window average rounded to a
multiple of 5 is recorded, as the claim says. But with samples alternating
1000 / 2000 (deviation never within ±1%) the 24 samples run out and the
for-else branch appends the variable `rpm`, which was never assigned in this
step: on the first step this raises `UnboundLocalError` (no value is recorded
and calibration does not continue), and on a later step it silently records
the value recorded for an earlier settled step (here 555) — not the last
computed window average ([2000, 1000, 2000] would give 1665). -/
theorem C5_settle_loop_stale_rpm :
    calibration.run_step (fun i => some (if i % 2 = 0 then 1000 else 2000)) none
      = .crashUnbound
  ∧ calibration.run_step (fun i => some (if i % 2 = 0 then 1000 else 2000)) (some 555)
      = .recorded false 555
  ∧ (555 : ℤ) ≠ pyRound ((5000 / 3 : ℚ) / 5) * 5
  ∧ calibration.run_step (fun _ => some 1000) none = .recorded true 1000 := by
  refine ⟨?_, ?_, ?_, ?_⟩
  · norm_num [calibration.run_step, calibration.sample_step, pyRound, ratFloor_eq]
  · norm_num [calibration.run_step, calibration.sample_step, pyRound, ratFloor_eq]
  · norm_num [pyRound, ratFloor_eq]
  · norm_num [calibration.run_step, calibration.sample_step, pyRound, ratFloor_eq]

-- ---------------------------------------------------------------------------
-- C2: the temperature round trip.
-- ---------------------------------------------------------------------------

theorem pyRound_ge_floor (q : ℚ) : ⌊q⌋ ≤ pyRound q := by
  unfold pyRound
  rw [ratFloor_eq]
  dsimp only
  split_ifs <;> omega

theorem pyRound_le_floor_add_one (q : ℚ) : pyRound q ≤ ⌊q⌋ + 1 := by
  unfold pyRound
  rw [ratFloor_eq]
  dsimp only
  split_ifs <;> omega

theorem encode_eq_pair (x : ℚ) (hx0 : 0 ≤ x) :
    conversions.convert_temperature2bytes x
      = conversions.encode_pair ⌊x⌋ (pyRound (pyMod1 x * 100)) := by
  have hint : pyInt x = ⌊x⌋ := by
    unfold pyInt
    rw [if_pos hx0]
    exact ratFloor_eq x
  unfold conversions.convert_temperature2bytes conversions.encode_pair
  rw [hint]

theorem decode_encode_pair (m d : ℤ) :
    conversions.convert_bytes2temperature (conversions.encode_pair m d).1
        (conversions.encode_pair m d).2
      = (m : ℚ) + (conversions.bandC d : ℚ) / 100 := by
  by_cases h95 : d ≥ 95
  · have hb : conversions.bandC d = 100 := by
      unfold conversions.bandC
      split_ifs <;> omega
    have he : conversions.encode_pair m d = (m + 1, 0) := by
      unfold conversions.encode_pair
      rw [if_pos h95]
    rw [he, hb]
    unfold conversions.convert_bytes2temperature
    norm_num [show Int.land 0 128 = 0 from by decide, show Int.land 0 64 = 0 from by decide,
      show Int.land 0 32 = 0 from by decide]
  · by_cases h38 : d ≥ 38
    · by_cases h20 : d - 50 ≥ 20
      · by_cases h8 : d - 50 - 25 ≥ 8
        · have hb : conversions.bandC d = 90 := by
            unfold conversions.bandC
            split_ifs <;> omega
          have he : conversions.encode_pair m d = (m, 224) := by
            unfold conversions.encode_pair
            rw [if_neg h95, if_pos h38]
            dsimp only
            rw [if_pos h20]
            dsimp only
            rw [if_pos h8]
            all_goals rfl
          rw [he, hb]
          unfold conversions.convert_bytes2temperature
          norm_num [show Int.land 224 128 = 128 from by decide,
            show Int.land 224 64 = 64 from by decide, show Int.land 224 32 = 32 from by decide]
          all_goals push_cast
          all_goals ring
        · have hb : conversions.bandC d = 75 := by
            unfold conversions.bandC
            split_ifs <;> omega
          have he : conversions.encode_pair m d = (m, 192) := by
            unfold conversions.encode_pair
            rw [if_neg h95, if_pos h38]
            dsimp only
            rw [if_pos h20]
            dsimp only
            rw [if_neg h8]
            all_goals rfl
          rw [he, hb]
          unfold conversions.convert_bytes2temperature
          norm_num [show Int.land 192 128 = 128 from by decide,
            show Int.land 192 64 = 64 from by decide, show Int.land 192 32 = 0 from by decide]
          all_goals push_cast
          all_goals ring
      · by_cases h8 : d - 50 ≥ 8
        · have hb : conversions.bandC d = 65 := by
            unfold conversions.bandC
            split_ifs <;> omega
          have he : conversions.encode_pair m d = (m, 160) := by
            unfold conversions.encode_pair
            rw [if_neg h95, if_pos h38]
            dsimp only
            rw [if_neg h20]
            dsimp only
            rw [if_pos h8]
            all_goals rfl
          rw [he, hb]
          unfold conversions.convert_bytes2temperature
          norm_num [show Int.land 160 128 = 128 from by decide,
            show Int.land 160 64 = 0 from by decide, show Int.land 160 32 = 32 from by decide]
          all_goals push_cast
          all_goals ring
        · have hb : conversions.bandC d = 50 := by
            unfold conversions.bandC
            split_ifs <;> omega
          have he : conversions.encode_pair m d = (m, 128) := by
            unfold conversions.encode_pair
            rw [if_neg h95, if_pos h38]
            dsimp only
            rw [if_neg h20]
            dsimp only
            rw [if_neg h8]
            all_goals rfl
          rw [he, hb]
          unfold conversions.convert_bytes2temperature
          norm_num [show Int.land 128 128 = 128 from by decide,
            show Int.land 128 64 = 0 from by decide, show Int.land 128 32 = 0 from by decide]
          all_goals push_cast
          all_goals ring
    · by_cases h20 : d ≥ 20
      · by_cases h8 : d - 25 ≥ 8
        · have hb : conversions.bandC d = 40 := by
            unfold conversions.bandC
            split_ifs <;> omega
          have he : conversions.encode_pair m d = (m, 96) := by
            unfold conversions.encode_pair
            rw [if_neg h95, if_neg h38]
            dsimp only
            rw [if_pos h20]
            dsimp only
            rw [if_pos h8]
            all_goals rfl
          rw [he, hb]
          unfold conversions.convert_bytes2temperature
          norm_num [show Int.land 96 128 = 0 from by decide,
            show Int.land 96 64 = 64 from by decide, show Int.land 96 32 = 32 from by decide]
          all_goals push_cast
          all_goals ring
        · have hb : conversions.bandC d = 25 := by
            unfold conversions.bandC
            split_ifs <;> omega
          have he : conversions.encode_pair m d = (m, 64) := by
            unfold conversions.encode_pair
            rw [if_neg h95, if_neg h38]
            dsimp only
            rw [if_pos h20]
            dsimp only
            rw [if_neg h8]
            all_goals rfl
          rw [he, hb]
          unfold conversions.convert_bytes2temperature
          norm_num [show Int.land 64 128 = 0 from by decide,
            show Int.land 64 64 = 64 from by decide, show Int.land 64 32 = 0 from by decide]
          all_goals push_cast
          all_goals ring
      · by_cases h8 : d ≥ 8
        · have hb : conversions.bandC d = 15 := by
            unfold conversions.bandC
            split_ifs <;> omega
          have he : conversions.encode_pair m d = (m, 32) := by
            unfold conversions.encode_pair
            rw [if_neg h95, if_neg h38]
            dsimp only
            rw [if_neg h20]
            dsimp only
            rw [if_pos h8]
            all_goals rfl
          rw [he, hb]
          unfold conversions.convert_bytes2temperature
          norm_num [show Int.land 32 128 = 0 from by decide,
            show Int.land 32 64 = 0 from by decide, show Int.land 32 32 = 32 from by decide]
          all_goals push_cast
          all_goals ring
        · have hb : conversions.bandC d = 0 := by
            unfold conversions.bandC
            split_ifs <;> omega
          have he : conversions.encode_pair m d = (m, 0) := by
            unfold conversions.encode_pair
            rw [if_neg h95, if_neg h38]
            dsimp only
            rw [if_neg h20]
            dsimp only
            rw [if_neg h8]
            all_goals rfl
          rw [he, hb]
          unfold conversions.convert_bytes2temperature
          norm_num [show Int.land 0 128 = 0 from by decide,
            show Int.land 0 64 = 0 from by decide, show Int.land 0 32 = 0 from by decide]

theorem bandC_nearest (d : ℤ) (h0 : 0 ≤ d) (h1 : d ≤ 100) (hex : ¬(38 ≤ d ∧ d ≤ 44)) :
    (∃ j : ℤ, ∃ c ∈ conversions.reprFracsC, conversions.bandC d = 100 * j + c)
    ∧ ∀ c ∈ conversions.reprFracsC, ∀ j : ℤ,
        |d - conversions.bandC d| ≤ |d - (100 * j + c)| := by
  unfold conversions.bandC
  split_ifs with hc1 hc2 hc3 hc4 hc5 hc6 hc7 hc8
  · refine ⟨⟨1, 0, by simp [conversions.reprFracsC], by omega⟩, ?_⟩
    intro c hc j
    simp only [conversions.reprFracsC, List.mem_cons, List.not_mem_nil, or_false] at hc
    simp only [Int.abs_eq_natAbs]
    omega
  · refine ⟨⟨0, 90, by simp [conversions.reprFracsC], by omega⟩, ?_⟩
    intro c hc j
    simp only [conversions.reprFracsC, List.mem_cons, List.not_mem_nil, or_false] at hc
    simp only [Int.abs_eq_natAbs]
    omega
  · refine ⟨⟨0, 75, by simp [conversions.reprFracsC], by omega⟩, ?_⟩
    intro c hc j
    simp only [conversions.reprFracsC, List.mem_cons, List.not_mem_nil, or_false] at hc
    simp only [Int.abs_eq_natAbs]
    omega
  · refine ⟨⟨0, 65, by simp [conversions.reprFracsC], by omega⟩, ?_⟩
    intro c hc j
    simp only [conversions.reprFracsC, List.mem_cons, List.not_mem_nil, or_false] at hc
    simp only [Int.abs_eq_natAbs]
    omega
  · refine ⟨⟨0, 50, by simp [conversions.reprFracsC], by omega⟩, ?_⟩
    intro c hc j
    simp only [conversions.reprFracsC, List.mem_cons, List.not_mem_nil, or_false] at hc
    simp only [Int.abs_eq_natAbs]
    omega
  · refine ⟨⟨0, 40, by simp [conversions.reprFracsC], by omega⟩, ?_⟩
    intro c hc j
    simp only [conversions.reprFracsC, List.mem_cons, List.not_mem_nil, or_false] at hc
    simp only [Int.abs_eq_natAbs]
    omega
  · refine ⟨⟨0, 25, by simp [conversions.reprFracsC], by omega⟩, ?_⟩
    intro c hc j
    simp only [conversions.reprFracsC, List.mem_cons, List.not_mem_nil, or_false] at hc
    simp only [Int.abs_eq_natAbs]
    omega
  · refine ⟨⟨0, 15, by simp [conversions.reprFracsC], by omega⟩, ?_⟩
    intro c hc j
    simp only [conversions.reprFracsC, List.mem_cons, List.not_mem_nil, or_false] at hc
    simp only [Int.abs_eq_natAbs]
    omega
  · refine ⟨⟨0, 0, by simp [conversions.reprFracsC], by omega⟩, ?_⟩
    intro c hc j
    simp only [conversions.reprFracsC, List.mem_cons, List.not_mem_nil, or_false] at hc
    simp only [Int.abs_eq_natAbs]
    omega

/-- C2 counterexample: 0.40 is itself representable (bits 0.25 + 0.15), but
encoding 0.40 produces the fraction byte 0x80 and decoding gives 0.50 —
strictly farther from 0.40 than the representable value 0.40 — so the round
trip is not nearest-representable rounding. -/
theorem C2_temperature_roundtrip_counterexample :
    conversions.convert_temperature2bytes (2 / 5) = (0, 0x80)
  ∧ conversions.convert_bytes2temperature 0 0x80 = 1 / 2
  ∧ conversions.Representable (2 / 5)
  ∧ |(2 / 5 : ℚ) - (2 / 5 : ℚ)|
      < |(2 / 5 : ℚ) - conversions.convert_bytes2temperature 0 0x80| := by
  have hdec : conversions.convert_bytes2temperature 0 0x80 = 1 / 2 := by
    unfold conversions.convert_bytes2temperature
    norm_num [show Int.land 128 128 = 128 from by decide,
      show Int.land 128 64 = 0 from by decide, show Int.land 128 32 = 0 from by decide]
  refine ⟨?_, hdec, ⟨0, 40, by simp [conversions.reprFracsC], by norm_num⟩,
    by rw [hdec]; norm_num⟩
  norm_num [conversions.convert_temperature2bytes, pyInt, pyMod1, pyRound, ratFloor_eq]

/-- C2 amended: for 0 ≤ x < 100 the round trip equals the integer part plus
the band fraction selected by the rounded centi-fraction
d = round(100 · (x mod 1)) (Python half-even rounding): this is the
representable value nearest to ⌊x⌋ + d/100 except when d lies in [38, 44],
where the result is ⌊x⌋ + 0.50 although ⌊x⌋ + 0.40 is nearer (the greedy
threshold 38 is not the midpoint 45). -/
theorem C2_temperature_roundtrip_amended (x : ℚ) (hx0 : 0 ≤ x) (hx1 : x < 100) :
    conversions.convert_bytes2temperature (conversions.convert_temperature2bytes x).1
        (conversions.convert_temperature2bytes x).2
      = (⌊x⌋ : ℚ) + (conversions.bandC (pyRound (pyMod1 x * 100)) : ℚ) / 100
    ∧ (38 ≤ pyRound (pyMod1 x * 100) ∧ pyRound (pyMod1 x * 100) ≤ 44 →
        conversions.convert_bytes2temperature (conversions.convert_temperature2bytes x).1
          (conversions.convert_temperature2bytes x).2 = (⌊x⌋ : ℚ) + 1 / 2)
    ∧ (¬(38 ≤ pyRound (pyMod1 x * 100) ∧ pyRound (pyMod1 x * 100) ≤ 44) →
        conversions.Representable
          (conversions.convert_bytes2temperature (conversions.convert_temperature2bytes x).1
            (conversions.convert_temperature2bytes x).2)
        ∧ ∀ z, conversions.Representable z →
            |((⌊x⌋ : ℚ) + (pyRound (pyMod1 x * 100) : ℚ) / 100)
                - conversions.convert_bytes2temperature
                    (conversions.convert_temperature2bytes x).1
                    (conversions.convert_temperature2bytes x).2|
              ≤ |((⌊x⌋ : ℚ) + (pyRound (pyMod1 x * 100) : ℚ) / 100) - z|) := by
  set D := pyRound (pyMod1 x * 100) with hD
  have h_y : conversions.convert_bytes2temperature (conversions.convert_temperature2bytes x).1
      (conversions.convert_temperature2bytes x).2
      = (⌊x⌋ : ℚ) + (conversions.bandC D : ℚ) / 100 := by
    rw [encode_eq_pair x hx0]
    exact decode_encode_pair ⌊x⌋ D
  have hq0 : (0 : ℚ) ≤ pyMod1 x * 100 := by
    unfold pyMod1
    rw [ratFloor_eq]
    have := Int.floor_le x
    nlinarith
  have hq1 : pyMod1 x * 100 < 100 := by
    unfold pyMod1
    rw [ratFloor_eq]
    have := Int.lt_floor_add_one x
    nlinarith
  have hD0 : 0 ≤ D := by
    have h1 := pyRound_ge_floor (pyMod1 x * 100)
    have h2 : (0 : ℤ) ≤ ⌊pyMod1 x * 100⌋ := Int.floor_nonneg.mpr hq0
    omega
  have hD1 : D ≤ 100 := by
    have h1 := pyRound_le_floor_add_one (pyMod1 x * 100)
    have h2 : ⌊pyMod1 x * 100⌋ < 100 := Int.floor_lt.mpr (by exact_mod_cast hq1)
    omega
  refine ⟨h_y, ?_, ?_⟩
  · rintro ⟨h38, h44⟩
    rw [h_y, show conversions.bandC D = 50 by
      unfold conversions.bandC
      split_ifs <;> omega]
    norm_num
  · intro hex
    obtain ⟨hrep, hmin⟩ := bandC_nearest D hD0 hD1 hex
    constructor
    · obtain ⟨j, c, hc, hb⟩ := hrep
      refine ⟨⌊x⌋ + j, c, hc, ?_⟩
      rw [h_y, hb]
      push_cast
      ring
    · intro z hz
      obtain ⟨k, c, hc, rfl⟩ := hz
      have hineq := hmin c hc (k - ⌊x⌋)
      rw [h_y]
      have e1 : ((⌊x⌋ : ℚ) + (D : ℚ) / 100) - ((⌊x⌋ : ℚ) + (conversions.bandC D : ℚ) / 100)
          = ((D - conversions.bandC D : ℤ) : ℚ) / 100 := by
        push_cast
        ring
      have e2 : ((⌊x⌋ : ℚ) + (D : ℚ) / 100) - ((k : ℚ) + (c : ℚ) / 100)
          = ((D - (100 * (k - ⌊x⌋) + c) : ℤ) : ℚ) / 100 := by
        push_cast
        ring
      rw [e1, e2, abs_div, abs_div, show |(100 : ℚ)| = 100 from by norm_num]
      refine (div_le_div_right (by norm_num)).mpr ?_
      rw [← Int.cast_abs, ← Int.cast_abs]
      exact_mod_cast hineq

/-- Witness for the amended C2 at x = 0.37 (d = 37, outside the defective
band, so the round trip lands on the nearest representable 0.40). -/
theorem C2_temperature_roundtrip_amended_witness :
    ((0 : ℚ) ≤ 37 / 100 ∧ (37 / 100 : ℚ) < 100)
  ∧ (conversions.convert_bytes2temperature
        (conversions.convert_temperature2bytes (37 / 100)).1
        (conversions.convert_temperature2bytes (37 / 100)).2
      = (⌊(37 / 100 : ℚ)⌋ : ℚ)
          + (conversions.bandC (pyRound (pyMod1 (37 / 100) * 100)) : ℚ) / 100
    ∧ (38 ≤ pyRound (pyMod1 (37 / 100 : ℚ) * 100)
          ∧ pyRound (pyMod1 (37 / 100 : ℚ) * 100) ≤ 44 →
        conversions.convert_bytes2temperature
          (conversions.convert_temperature2bytes (37 / 100)).1
          (conversions.convert_temperature2bytes (37 / 100)).2
        = (⌊(37 / 100 : ℚ)⌋ : ℚ) + 1 / 2)
    ∧ (¬(38 ≤ pyRound (pyMod1 (37 / 100 : ℚ) * 100)
          ∧ pyRound (pyMod1 (37 / 100 : ℚ) * 100) ≤ 44) →
        conversions.Representable
          (conversions.convert_bytes2temperature
            (conversions.convert_temperature2bytes (37 / 100)).1
            (conversions.convert_temperature2bytes (37 / 100)).2)
        ∧ ∀ z, conversions.Representable z →
            |((⌊(37 / 100 : ℚ)⌋ : ℚ)
                + (pyRound (pyMod1 (37 / 100 : ℚ) * 100) : ℚ) / 100)
                - conversions.convert_bytes2temperature
                    (conversions.convert_temperature2bytes (37 / 100)).1
                    (conversions.convert_temperature2bytes (37 / 100)).2|
              ≤ |((⌊(37 / 100 : ℚ)⌋ : ℚ)
                  + (pyRound (pyMod1 (37 / 100 : ℚ) * 100) : ℚ) / 100) - z|)) :=
  ⟨⟨by norm_num, by norm_num⟩,
    C2_temperature_roundtrip_amended (37 / 100) (by norm_num) (by norm_num)⟩
